import Mathlib

/-!
Verification development for the prompt-bookmarks catalogue.

The Python source (src/prompt_bookmarks/database.py and mcp_server.py) is
shallowly embedded below.  SQLAlchemy rows become records in lists kept in
insertion order (SQLite returns unordered queries in rowid order, and rowids
are assigned by an increasing counter, modelled by the next_*_id fields).
`query(...).filter_by(...).first()` becomes `List.find?`, bulk UPDATE becomes
`List.map`, DELETE becomes `List.filter`.  Timestamps are not modelled: no
claim mentions them.  SQL `ilike '%q%'` is modelled by a LIKE matcher over
ASCII-lowered character lists, exactly as SQLite evaluates it ('%' matches any
sequence, '_' any single character, ASCII-only case folding, no escape
character).
-/

/-- ASCII lower-casing of one character, as SQLite's `lower` performs it:
only the letters A..Z (codes 65..90) are shifted by 32, all other code points
are untouched. -/
def lowerChar (c : Char) : Char :=
  if h : 65 ≤ c.toNat ∧ c.toNat ≤ 90 then
    ⟨c.val + 32, by
      have h3 : (c.val + 32).toNat = c.val.toNat + 32 := by
        rw [UInt32.toNat_add]
        have h32 : (32 : UInt32).toNat = 32 := rfl
        have hs : UInt32.size = 4294967296 := rfl
        rw [h32, hs]
        exact Nat.mod_eq_of_lt (by have h2 : c.val.toNat ≤ 90 := h.2; omega)
      refine Or.inl ?_
      show (c.val + 32).toNat < 55296
      have h2 : c.val.toNat ≤ 90 := h.2
      omega⟩
  else c

/-- Lowering a string, character by character (ASCII only). -/
def lowerStr (s : List Char) : List Char := s.map lowerChar

/-- `likeStar m s` holds when `m` matches some suffix of `s` — the meaning
of a leading `%` in a LIKE pattern whose remainder matches via `m`. -/
def likeStar (m : List Char → Bool) : List Char → Bool
  | [] => m []
  | c :: cs => m (c :: cs) || likeStar m cs

/-- SQL LIKE pattern matching: `%` matches any sequence of characters,
`_` matches exactly one character, every other pattern character matches
itself.  The match is anchored at both ends, as in SQL. -/
def likeMatch : List Char → List Char → Bool
  | [], s => s.isEmpty
  | p :: ps, s =>
    if p = '%' then likeStar (likeMatch ps) s
    else
      match s with
      | [] => false
      | c :: s2 => if p = '_' then likeMatch ps s2 else (p == c) && likeMatch ps s2

/-- `ilike s pat` is SQLAlchemy's case-insensitive LIKE on SQLite:
`lower(s) LIKE lower(pat)`. -/
def ilike (s pat : String) : Bool :=
  likeMatch (lowerStr pat.data) (lowerStr s.data)

/-- Case-insensitive substring containment (the specification's reading of
the text search): the ASCII-lowered needle occurs contiguously inside the
ASCII-lowered haystack. -/
def containsSub (needle : List Char) : List Char → Bool
  | [] => needle.isEmpty
  | c :: cs => needle.isPrefixOf (c :: cs) || containsSub needle cs

/-- Case-insensitive substring test on strings. -/
def containsCI (needle s : String) : Bool :=
  containsSub (lowerStr needle.data) (lowerStr s.data)

/-- Python's `str.replace` for a non-empty pattern: scan left to right,
replacing each non-overlapping occurrence of `pat` by `rep`.  Each step
consumes at least one character, so the scanned string's initial length is
enough fuel; the fuel-exhausted arm is unreachable.  (For an empty pattern
Python interleaves `rep` everywhere; the program only ever calls replace
with brace-wrapped, hence non-empty, patterns, and this model returns the
string unchanged in that irrelevant case.) -/
def replaceFuel (pat rep : List Char) : Nat → List Char → List Char
  | _, [] => []
  | 0, l => l
  | fuel + 1, c :: cs =>
    if pat ≠ [] ∧ pat.isPrefixOf (c :: cs) then
      rep ++ replaceFuel pat rep fuel (cs.drop (pat.length - 1))
    else
      c :: replaceFuel pat rep fuel cs

/-- `str.replace` on character lists. -/
def replaceList (pat rep s : List Char) : List Char :=
  replaceFuel pat rep s.length s

/-- `str.replace` on strings. -/
def pyReplace (s pat rep : String) : String :=
  ⟨replaceList pat.data rep.data s.data⟩

/-- Python's `str.split(sep)` for a single-character separator: the segments
between separators, empties included (`"".split(sep) == [""]`). -/
def splitOnChar (sep : Char) : List Char → List String
  | [] => [""]
  | c :: cs =>
    let r := splitOnChar sep cs
    if c = sep then "" :: r
    else
      match r with
      | [] => [⟨[c]⟩]
      | h :: t => (⟨c :: h.data⟩ : String) :: t

/-- Python's `startswith`, by code points. -/
def strStartsWith (s p : String) : Bool :=
  p.data.isPrefixOf s.data

/-- Python's `s[n:]` slice, by code points. -/
def strDrop (s : String) (n : Nat) : String :=
  ⟨s.data.drop n⟩

/-- Python's `len`, by code points. -/
def strLen (s : String) : Nat :=
  s.data.length

/-- A row of the `tags` table (models.TagDB); `created_at` is not modelled. -/
structure Tag where
  id : Nat
  name : String
  category : Option String
  color : Option String
deriving DecidableEq, Repr

/-- A row of the `folders` table (models.FolderDB). -/
structure Folder where
  id : Nat
  name : String
  path : String
  parent_id : Option Nat
deriving DecidableEq, Repr

/-- A row of the `prompts` table (models.PromptDB) together with its rows of
the `prompt_tags` association table, kept in append order. -/
structure Prompt where
  id : Nat
  title : String
  content : String
  description : Option String
  folder_id : Option Nat
  tagIds : List Nat
deriving DecidableEq, Repr

/-- The persistent store: the three tables in rowid (insertion) order and the
next autoincrement id of each. -/
structure DB where
  folders : List Folder
  tags : List Tag
  prompts : List Prompt
  next_folder_id : Nat
  next_tag_id : Nat
  next_prompt_id : Nat
deriving DecidableEq, Repr

/-- models.PromptCreate. -/
structure PromptCreate where
  title : String
  content : String
  description : Option String := none
  folder_path : Option String := none
  tags : List String := []

/-- models.PromptUpdate: `none` marks a field absent from the partial
update. -/
structure PromptUpdate where
  title : Option String := none
  content : Option String := none
  description : Option String := none
  folder_path : Option String := none
  tags : Option (List String) := none

/-- models.PromptSearch (defaults: limit 100, offset 0). -/
structure PromptSearch where
  query : Option String := none
  folder_path : Option String := none
  tags : Option (List String) := none
  limit : Nat := 100
  offset : Nat := 0

/-- database.get_folder_by_path: first folder row whose path equals `path`. -/
def get_folder_by_path (db : DB) (path : String) : Option Folder :=
  db.folders.find? (fun f => f.path = path)

/-- database.get_tag_by_name: first tag row whose name equals `name` exactly
(case-sensitive string equality). -/
def get_tag_by_name (db : DB) (name : String) : Option Tag :=
  db.tags.find? (fun t => t.name = name)

/-- database.list_folders: all folder rows (or, given a parent path, the
direct children of that folder, or `[]` when the parent path does not
resolve), each paired with its prompt count. -/
def list_folders (db : DB) (parent_path : Option String) : List (Folder × Nat) :=
  let base :=
    match parent_path with
    | none => db.folders
    | some pp =>
      match get_folder_by_path db pp with
      | some par => db.folders.filter (fun f => f.parent_id = some par.id)
      | none => []
  base.map (fun f => (f, (db.prompts.filter (fun pr => pr.folder_id = some f.id)).length))

/-- database.create_folder: resolve the (optional, truthy) parent path to a
parent id, then insert the new row. -/
def create_folder (db : DB) (name path : String) (parent_path : Option String) :
    DB × Folder :=
  let parent_id : Option Nat :=
    match parent_path with
    | some pp =>
      if pp = "" then none
      else
        match get_folder_by_path db pp with
        | some par => some par.id
        | none => none
    | none => none
  let f : Folder := ⟨db.next_folder_id, name, path, parent_id⟩
  ({ db with folders := db.folders ++ [f], next_folder_id := db.next_folder_id + 1 }, f)

/-- database.delete_folder: reparent the prompts directly inside the folder
to the folder's own parent id, then delete the folder row.  Returns false
when no folder has the given path. -/
def delete_folder (db : DB) (path : String) : DB × Bool :=
  match get_folder_by_path db path with
  | none => (db, false)
  | some f =>
    ({ db with
        prompts := db.prompts.map (fun pr =>
          if pr.folder_id = some f.id then { pr with folder_id := f.parent_id } else pr),
        folders := db.folders.filter (fun g => ¬ g.id = f.id) }, true)

/-- database.create_tag: blind insert of a new tag row.  (The real database
enforces name uniqueness; the MCP tool checks existence before calling
this.) -/
def create_tag (db : DB) (name : String) (category color : Option String) :
    DB × Tag :=
  let t : Tag := ⟨db.next_tag_id, name, category, color⟩
  ({ db with tags := db.tags ++ [t], next_tag_id := db.next_tag_id + 1 }, t)

/-- database.delete_tag. -/
def delete_tag (db : DB) (name : String) : DB × Bool :=
  match get_tag_by_name db name with
  | none => (db, false)
  | some t =>
    ({ db with tags := db.tags.filter (fun s => ¬ s.id = t.id) }, true)

/-- The tag loop shared by create_prompt and update_prompt: for each name in
order, look the tag up by exact name; if absent, create it with category
"custom" and no color; collect the resolved ids in order. -/
def resolve_tags (db : DB) : List String → DB × List Nat
  | [] => (db, [])
  | n :: ns =>
    match db.tags.find? (fun t => t.name = n) with
    | some t =>
      let r := resolve_tags db ns
      (r.1, t.id :: r.2)
    | none =>
      let tid := db.next_tag_id
      let db1 : DB :=
        { db with tags := db.tags ++ [⟨tid, n, some "custom", none⟩],
                  next_tag_id := tid + 1 }
      let r := resolve_tags db1 ns
      (r.1, tid :: r.2)

/-- The loop body of database._create_folder_hierarchy: walk the non-empty
path segments, extending `current_path` by "/" and the segment; reuse an
existing folder row, otherwise insert one whose parent_id is the id
accumulated so far (initially none).  Returns the id of the folder for the
last segment; `none` on an empty segment list (where Python would hit an
unbound local — unreachable from the program's call sites). -/
def create_folder_hierarchy_aux (db : DB) (current_path : String)
    (parent_id : Option Nat) : List String → DB × Option Nat
  | [] => (db, parent_id)
  | part :: rest =>
    let cp := current_path ++ "/" ++ part
    match db.folders.find? (fun f => f.path = cp) with
    | some f => create_folder_hierarchy_aux db cp (some f.id) rest
    | none =>
      let fid := db.next_folder_id
      let db1 : DB :=
        { db with folders := db.folders ++ [⟨fid, part, cp, parent_id⟩],
                  next_folder_id := fid + 1 }
      create_folder_hierarchy_aux db1 cp (some fid) rest

/-- database._create_folder_hierarchy: split the path on '/', drop the empty
segments, and create each missing segment in order. -/
def create_folder_hierarchy (db : DB) (path : String) : DB × Option Nat :=
  create_folder_hierarchy_aux db "" none
    ((splitOnChar '/' path.data).filter (fun s => ¬ s = ""))

/-- database.create_prompt: resolve or create the folder (only when the
folder path is truthy), insert the prompt row, then resolve or create the
tags and associate them. -/
def create_prompt (db : DB) (d : PromptCreate) : DB × Prompt :=
  let fr : DB × Option Nat :=
    match d.folder_path with
    | some fp =>
      if fp = "" then (db, none)
      else
        match get_folder_by_path db fp with
        | some f => (db, some f.id)
        | none => create_folder_hierarchy db fp
    | none => (db, none)
  let db1 := fr.1
  let pid := db1.next_prompt_id
  let tr := resolve_tags db1 d.tags
  let pr : Prompt := ⟨pid, d.title, d.content, d.description, fr.2, tr.2⟩
  ({ tr.1 with prompts := tr.1.prompts ++ [pr], next_prompt_id := pid + 1 }, pr)

/-- database.delete_prompt. -/
def delete_prompt (db : DB) (pid : Nat) : DB × Bool :=
  match db.prompts.find? (fun p => p.id = pid) with
  | none => (db, false)
  | some pr =>
    ({ db with prompts := db.prompts.filter (fun p => ¬ p.id = pr.id) }, true)

/-- The folder step of database.update_prompt: an absent folder_path keeps
the prompt's folder id; a present one is looked up, an empty one that fails
lookup clears the folder id, a non-empty one that fails lookup creates the
hierarchy. -/
def update_folder_resolve (db : DB) (pr : Prompt) (u : PromptUpdate) :
    DB × Option Nat :=
  match u.folder_path with
  | none => (db, pr.folder_id)
  | some fp =>
    match get_folder_by_path db fp with
    | some f => (db, some f.id)
    | none =>
      if fp = "" then (db, none)
      else create_folder_hierarchy db fp

/-- database.update_prompt: apply exactly the fields present in the partial
update.  A present folder_path is re-resolved (an empty one clears the
folder); a present tags list replaces the entire tag set. -/
def update_prompt (db : DB) (pid : Nat) (u : PromptUpdate) : DB × Option Prompt :=
  match db.prompts.find? (fun p => p.id = pid) with
  | none => (db, none)
  | some pr =>
    let fr : DB × Option Nat := update_folder_resolve db pr u
    let tr : DB × List Nat :=
      match u.tags with
      | none => (fr.1, pr.tagIds)
      | some names => resolve_tags fr.1 names
    let pr2 : Prompt :=
      { pr with
          title := u.title.getD pr.title,
          content := u.content.getD pr.content,
          description := match u.description with | some d => some d | none => pr.description,
          folder_id := fr.2,
          tagIds := tr.2 }
    ({ tr.1 with prompts := tr.1.prompts.map (fun p => if p.id = pid then pr2 else p) },
     some pr2)

/-- The pydantic conversion's folder_path field: the path of the prompt's
folder row, if any (database._prompt_db_to_pydantic). -/
def prompt_folder_path (db : DB) (pr : Prompt) : Option String :=
  match pr.folder_id with
  | some fid => (db.folders.find? (fun f => f.id = fid)).map (fun f => f.path)
  | none => none

/-- database.get_prompt, reduced to the row lookup (the pydantic conversion
is applied where a claim needs it). -/
def get_prompt (db : DB) (pid : Nat) : Option Prompt :=
  db.prompts.find? (fun p => p.id = pid)

/-- The text-search disjunction of database.search_prompts: ilike against
title, content, or description (a NULL description never matches, as in
SQL). -/
def query_pred (q : String) (pr : Prompt) : Bool :=
  ilike pr.title ("%" ++ q ++ "%") || ilike pr.content ("%" ++ q ++ "%") ||
    (match pr.description with
     | some d => ilike d ("%" ++ q ++ "%")
     | none => false)

/-- The tag-filter loop of database.search_prompts: one containment filter
per tag name that resolves; unresolved names add no filter. -/
def apply_tag_filters (db : DB) (names : List String) (l : List Prompt) :
    List Prompt :=
  names.foldl
    (fun acc n =>
      match get_tag_by_name db n with
      | some t => acc.filter (fun pr => pr.tagIds.contains t.id)
      | none => acc) l

/-- The tail of database.search_prompts after the folder filter: the tag
filters, then the total count, then offset and limit. -/
def finish_search (db : DB) (p : PromptSearch) (l : List Prompt) :
    List Prompt × Nat :=
  let l2 :=
    match p.tags with
    | some ns => apply_tag_filters db ns l
    | none => l
  ((l2.drop p.offset).take p.limit, l2.length)

/-- database.search_prompts: query filter (skipped for an absent or empty
query), folder filter (an existing folder restricts to its prompts, a
missing one short-circuits to ([], 0), an absent or empty path is skipped),
tag filters, total before pagination, then offset and limit.  (A falsy
`tags` value skips the loop in Python; folding an empty name list applies no
filter, which is the same thing.) -/
def search_prompts (db : DB) (p : PromptSearch) : List Prompt × Nat :=
  let l1 :=
    match p.query with
    | some q => if q = "" then db.prompts else db.prompts.filter (query_pred q)
    | none => db.prompts
  match p.folder_path with
  | some fp =>
    if fp = "" then finish_search db p l1
    else
      match get_folder_by_path db fp with
      | some f => finish_search db p (l1.filter (fun pr => pr.folder_id = some f.id))
      | none => ([], 0)
  | none => finish_search db p l1

/-- database.list_prompts delegates to search_prompts. -/
def list_prompts (db : DB) (folder_path : Option String) (limit offset : Nat) :
    List Prompt × Nat :=
  search_prompts db ⟨none, folder_path, none, limit, offset⟩

/-- database._initialize_defaults: create the root folder and the seven
default tags when absent. -/
def init_defaults (db : DB) : DB :=
  let db1 :=
    match get_folder_by_path db "/" with
    | some _ => db
    | none =>
      { db with folders := db.folders ++ [⟨db.next_folder_id, "Root", "/", none⟩],
                next_folder_id := db.next_folder_id + 1 }
  let defaults : List (String × String × String) :=
    [("claude", "ai_tool", "#7C3AED"), ("chatgpt", "ai_tool", "#10B981"),
     ("perplexity", "ai_tool", "#3B82F6"), ("gemini", "ai_tool", "#F59E0B"),
     ("coding", "topic", "#EF4444"), ("writing", "topic", "#8B5CF6"),
     ("analysis", "topic", "#06B6D4")]
  defaults.foldl
    (fun d tc =>
      match get_tag_by_name d tc.1 with
      | some _ => d
      | none => (create_tag d tc.1 (some tc.2.1) (some tc.2.2)).1) db1

/-- A freshly created store file: empty tables, autoincrement counters at 1,
then the default data. -/
def db0 : DB := init_defaults ⟨[], [], [], 1, 1, 1⟩

/-- The placeholder-substitution loop of mcp_server._use_prompt_template_tool
and _find_and_use_prompt_tool: for each variable in order, replace the name
wrapped in single braces, then the name wrapped in double braces. -/
def substitute_variables (vars : List (String × String)) (content : String) :
    String :=
  vars.foldl
    (fun c kv =>
      pyReplace (pyReplace c ("\x7b" ++ kv.1 ++ "\x7d") kv.2)
        ("\x7b\x7b" ++ kv.1 ++ "\x7d\x7d") kv.2) content

/-- mcp_server._use_prompt_template_tool, reduced to the prompt_content field
of its result: fetch the prompt by id and substitute the variables into its
content (none when the id is absent). -/
def use_prompt_template (db : DB) (pid : Nat) (vars : List (String × String)) :
    Option String :=
  (get_prompt db pid).map (fun pr => substitute_variables vars pr.content)

/-- mcp_server._find_and_use_prompt_tool, reduced to the prompt_content field:
search with limit 5, take the first hit, substitute the variables. -/
def find_and_use_prompt (db : DB) (q : String) (vars : List (String × String)) :
    Option String :=
  match (search_prompts db ⟨some q, none, none, 5, 0⟩).1 with
  | [] => none
  | pr :: _ => some (substitute_variables vars pr.content)

/-- mcp_server._create_tag_tool: reject an empty name; return a pre-existing
tag of that exact name unchanged; otherwise insert.  `none` models the error
response. -/
def create_tag_tool (db : DB) (name : String) (category color : Option String) :
    DB × Option Tag :=
  if name = "" then (db, none)
  else
    match get_tag_by_name db name with
    | some t => (db, some t)
    | none =>
      let r := create_tag db name category color
      (r.1, some r.2)

/-- mcp_server._create_folder_if_not_exists: materialize a folder path by
creating a placeholder prompt filed under it and deleting that prompt. -/
def create_folder_if_not_exists (db : DB) (fp : String) : DB :=
  if ((list_folders db none).map Prod.fst).any (fun f => f.path = fp) then db
  else
    let r := create_prompt db ⟨"__temp_for_folder__", "temp", none, some fp, []⟩
    (delete_prompt r.1 r.2.id).1

/-- Number of '/' characters in a path (Python's path.count). -/
def slash_count (s : String) : Nat :=
  (s.data.filter (fun c => c = '/')).length

/-- One step of a stable insertion sort in descending key order: the new
element (earlier in the original list) is placed before the first element
whose key does not exceed it, so elements with equal keys keep their
original relative order — the behavior of Python's stable
`sort(key=..., reverse=True)`. -/
def insert_desc (key : Folder → Nat) (a : Folder) : List Folder → List Folder
  | [] => [a]
  | b :: bs => if key b ≤ key a then a :: b :: bs else b :: insert_desc key a bs

/-- Stable sort, descending by key (Python's list.sort with reverse=True). -/
def sort_desc (key : Folder → Nat) (l : List Folder) : List Folder :=
  l.foldr (insert_desc key) []

/-- mcp_server._update_folder_tool: validate, collect the affected folders
and prompts, create the renamed folder structure, move the prompts, delete
the old folders deepest-first.  The Bool is true exactly on the success
response; every error response returns the store unchanged. -/
def update_folder_tool (db : DB) (old0 new0 : String) : DB × Bool :=
  if old0 = "" ∨ new0 = "" then (db, false)
  else
    let old_path := if strStartsWith old0 "/" then old0 else "/" ++ old0
    let new_path := if strStartsWith new0 "/" then new0 else "/" ++ new0
    let folders := (list_folders db none).map Prod.fst
    match folders.find? (fun f => f.path = old_path) with
    | none => (db, false)
    | some _ =>
      if (folders.find? (fun f => f.path = new_path)).isSome then (db, false)
      else if old_path = "/" then (db, false)
      else if strStartsWith new_path (old_path ++ "/") then (db, false)
      else
        let folders_to_update :=
          folders.filter (fun f => f.path = old_path ∨ strStartsWith f.path (old_path ++ "/"))
        let prompts_main := (search_prompts db ⟨none, some old_path, none, 1000, 0⟩).1
        let prompts_children :=
          folders_to_update.foldl
            (fun acc f =>
              if ¬ f.path = old_path then
                acc ++ (search_prompts db ⟨none, some f.path, none, 1000, 0⟩).1
              else acc) []
        let prompts_to_update := prompts_main ++ prompts_children
        let prompt_moves :=
          prompts_to_update.map (fun pr => (pr.id, prompt_folder_path db pr))
        let db1 :=
          folders_to_update.foldl
            (fun d f =>
              let fnew :=
                if f.path = old_path then new_path
                else new_path ++ strDrop f.path (strLen old_path)
              create_folder_if_not_exists d fnew) db
        let db2 :=
          prompt_moves.foldl
            (fun d m =>
              let pnew :=
                if m.2 = some old_path then new_path
                else new_path ++ strDrop (m.2.getD "") (strLen old_path)
              (update_prompt d m.1 ⟨none, none, none, some pnew, none⟩).1) db1
        let sorted := sort_desc (fun f => slash_count f.path) folders_to_update
        let db3 := sorted.foldl (fun d f => (delete_folder d f.path).1) db2
        (db3, true)

/-- The specification's per-prompt reading of the query filter: absent or
empty queries match everything. -/
def query_cond (p : PromptSearch) (pr : Prompt) : Bool :=
  match p.query with
  | some q => if q = "" then true else query_pred q pr
  | none => true

/-- The specification's per-prompt reading of the folder filter: an absent
or empty path matches everything, a path naming no folder matches nothing,
an existing folder matches exactly its prompts. -/
def folder_cond (db : DB) (p : PromptSearch) (pr : Prompt) : Bool :=
  match p.folder_path with
  | some fp =>
    if fp = "" then true
    else
      match get_folder_by_path db fp with
      | some f => pr.folder_id = some f.id
      | none => false
  | none => true

/-- The specification's per-prompt reading of the tag filter: the prompt
must carry every listed tag that resolves; names that resolve to no tag are
ignored. -/
def tag_cond (db : DB) (p : PromptSearch) (pr : Prompt) : Bool :=
  match p.tags with
  | some ns =>
    ns.all (fun n =>
      match get_tag_by_name db n with
      | some t => pr.tagIds.contains t.id
      | none => true)
  | none => true

/-- A prompt matches a search invocation when it passes all three filters. -/
def spec_matches (db : DB) (p : PromptSearch) (pr : Prompt) : Bool :=
  query_cond p pr && folder_cond db p pr && tag_cond db p pr

/-- A store holding one prompt titled "greet" whose content carries a
single-brace and a double-brace placeholder. -/
def db_greet : DB :=
  (create_prompt db0 ⟨"greet", "Hello \x7bname\x7d, \x7b\x7bname\x7d\x7d again",
    none, none, []⟩).1

/-- A store holding folders /A and /A/C (implicitly created) and a prompt X
(id 1) filed in /A/C. -/
def dbA : DB := (create_prompt db0 ⟨"X", "xc", none, some "/A/C", []⟩).1

/-- A store holding one prompt (id 1) with content "xyz" and no
description. -/
def db_xyz : DB := (create_prompt db0 ⟨"t1", "xyz", none, none, []⟩).1

/-- A store holding one prompt (id 1) carrying the freshly created custom
tags "a" (id 8) and "b" (id 9). -/
def db_tags : DB := (create_prompt db0 ⟨"t", "c", none, none, ["a", "b"]⟩).1

/-- Well-formedness guaranteed by the schema: folder ids (primary key) and
paths (unique constraint) are pairwise distinct. -/
def folders_wf (db : DB) : Prop :=
  (db.folders.map (fun f => f.id)).Nodup ∧ (db.folders.map (fun f => f.path)).Nodup

instance (db : DB) : Decidable (folders_wf db) := by
  unfold folders_wf
  infer_instance

/-- Well-formedness guaranteed by the schema and the autoincrement counter:
tag ids are pairwise distinct and below the next id to be assigned. -/
def tags_wf (db : DB) : Prop :=
  (db.tags.map (fun t => t.id)).Nodup ∧ ∀ t ∈ db.tags, t.id < db.next_tag_id

instance (db : DB) : Decidable (tags_wf db) := by
  unfold tags_wf
  exact instDecidableAnd

def u8 : PromptUpdate := ⟨none, none, none, none, some ["claude", "fresh"]⟩

/-- Helper: the tag-filter loop is one filter by the conjunction of the
per-name conditions. -/
theorem apply_tag_filters_eq (db : DB) (ns : List String) (l : List Prompt) :
    apply_tag_filters db ns l =
      l.filter (fun pr =>
        ns.all (fun n =>
          match get_tag_by_name db n with
          | some t => pr.tagIds.contains t.id
          | none => true)) := by
  induction ns generalizing l with
  | nil => simp [apply_tag_filters]
  | cons n ns ih =>
    simp only [apply_tag_filters, List.foldl_cons] at *
    cases h : get_tag_by_name db n with
    | none =>
      rw [ih]
      apply List.filter_congr
      intro pr _
      simp [h]
    | some t =>
      rw [ih, List.filter_filter]
      apply List.filter_congr
      intro pr _
      simp only [h, List.all_cons]
      rw [Bool.and_comm]

theorem finish_search_eq (db : DB) (p : PromptSearch) (l : List Prompt) :
    finish_search db p l =
      (((l.filter (tag_cond db p)).drop p.offset).take p.limit,
       (l.filter (tag_cond db p)).length) := by
  unfold finish_search tag_cond
  cases h : p.tags with
  | none => simp
  | some ns =>
    dsimp only
    rw [apply_tag_filters_eq]

theorem search_prompts_eq (db : DB) (p : PromptSearch) :
    search_prompts db p =
      (((db.prompts.filter (spec_matches db p)).drop p.offset).take p.limit,
       (db.prompts.filter (spec_matches db p)).length) := by
  unfold search_prompts spec_matches
  have hq : (match p.query with
      | some q => if q = "" then db.prompts else db.prompts.filter (query_pred q)
      | none => db.prompts) = db.prompts.filter (query_cond p) := by
    unfold query_cond
    cases h : p.query with
    | none => simp
    | some q =>
      by_cases hq0 : q = "" <;> simp [hq0]
  rw [hq]
  cases hf : p.folder_path with
  | none =>
    dsimp only
    rw [finish_search_eq, List.filter_filter]
    have : ∀ pr, (tag_cond db p pr && query_cond p pr)
        = (query_cond p pr && folder_cond db p pr && tag_cond db p pr) := by
      intro pr
      simp only [folder_cond, hf]
      cases query_cond p pr <;> cases tag_cond db p pr <;> simp
    simp only [this]
  | some fp =>
    dsimp only
    by_cases hfp : fp = ""
    · rw [if_pos hfp]
      rw [finish_search_eq, List.filter_filter]
      have : ∀ pr, (tag_cond db p pr && query_cond p pr)
          = (query_cond p pr && folder_cond db p pr && tag_cond db p pr) := by
        intro pr
        have hfc : folder_cond db p pr = true := by
          simp only [folder_cond, hf]
          rw [if_pos hfp]
        rw [hfc]
        cases query_cond p pr <;> cases tag_cond db p pr <;> simp
      simp only [this]
    · rw [if_neg hfp]
      cases hg : get_folder_by_path db fp with
      | none =>
        dsimp only
        have : ∀ pr, (query_cond p pr && folder_cond db p pr && tag_cond db p pr) = false := by
          intro pr
          simp only [folder_cond, hf, hg, if_neg hfp]
          cases query_cond p pr <;> simp
        rw [List.filter_congr (fun pr _ => this pr), List.filter_false]
        simp
      | some f =>
        dsimp only
        rw [finish_search_eq, List.filter_filter, List.filter_filter]
        have : ∀ pr, (tag_cond db p pr && decide (pr.folder_id = some f.id) && query_cond p pr)
            = (query_cond p pr && folder_cond db p pr && tag_cond db p pr) := by
          intro pr
          simp only [folder_cond, hf, hg, if_neg hfp]
          cases query_cond p pr <;> cases tag_cond db p pr <;> cases hd : decide (pr.folder_id = some f.id) <;> simp
        rw [List.filter_congr (fun pr _ => this pr)]

theorem lowerChar_toNat (c : Char) (h : 65 ≤ c.toNat ∧ c.toNat ≤ 90) :
    (lowerChar c).toNat = c.toNat + 32 := by
  unfold lowerChar
  rw [dif_pos h]
  show (c.val + 32).toNat = c.toNat + 32
  rw [UInt32.toNat_add]
  have h32 : (32 : UInt32).toNat = 32 := rfl
  have hs : UInt32.size = 4294967296 := rfl
  rw [h32, hs]
  exact Nat.mod_eq_of_lt (by have h2 : c.val.toNat ≤ 90 := h.2; omega)

theorem lowerChar_ne (c d : Char) (hd : d.toNat < 97 ∨ 122 < d.toNat)
    (hne : ¬ c = d) : ¬ lowerChar c = d := by
  by_cases h : 65 ≤ c.toNat ∧ c.toNat ≤ 90
  · intro he
    have h1 := lowerChar_toNat c h
    rw [he] at h1
    omega
  · unfold lowerChar
    rw [dif_neg h]
    exact hne

theorem likeStar_nil_pat (s : List Char) : likeStar (likeMatch []) s = true := by
  induction s with
  | nil => rfl
  | cons c cs ih => simp [likeStar, ih]

theorem likeMatch_lit_pct (lit : List Char) (h : ∀ c ∈ lit, ¬ c = '%' ∧ ¬ c = '_') :
    ∀ s : List Char, likeMatch (lit ++ ['%']) s = lit.isPrefixOf s := by
  induction lit with
  | nil =>
    intro s
    simp only [List.nil_append]
    show likeMatch ['%'] s = [].isPrefixOf s
    have : likeMatch ['%'] s = likeStar (likeMatch []) s := by
      simp [likeMatch]
    rw [this, likeStar_nil_pat]
    cases s <;> simp [List.isPrefixOf]
  | cons p ps ih =>
    intro s
    have hp := h p (List.mem_cons_self p ps)
    have hps : ∀ c ∈ ps, ¬ c = '%' ∧ ¬ c = '_' := fun c hc => h c (List.mem_cons_of_mem p hc)
    cases s with
    | nil =>
      show likeMatch (p :: (ps ++ ['%'])) [] = (p :: ps).isPrefixOf []
      simp [likeMatch, if_neg hp.1, List.isPrefixOf]
    | cons c cs =>
      show likeMatch (p :: (ps ++ ['%'])) (c :: cs) = (p :: ps).isPrefixOf (c :: cs)
      simp only [likeMatch, if_neg hp.1, if_neg hp.2]
      rw [ih hps cs]
      rfl

theorem isPrefixOf_nil_eq (lit : List Char) : lit.isPrefixOf [] = lit.isEmpty := by
  cases lit <;> rfl

theorem likeMatch_pct_lit_pct (lit : List Char) (h : ∀ c ∈ lit, ¬ c = '%' ∧ ¬ c = '_') :
    ∀ s : List Char, likeMatch ('%' :: (lit ++ ['%'])) s = containsSub lit s := by
  intro s
  have hm : ∀ s2 : List Char, likeMatch ('%' :: (lit ++ ['%'])) s2
      = likeStar (likeMatch (lit ++ ['%'])) s2 := by
    intro s2
    simp [likeMatch]
  rw [hm]
  induction s with
  | nil =>
    show likeMatch (lit ++ ['%']) [] = containsSub lit []
    rw [likeMatch_lit_pct lit h, isPrefixOf_nil_eq]
    rfl
  | cons c cs ih =>
    show (likeMatch (lit ++ ['%']) (c :: cs) || likeStar (likeMatch (lit ++ ['%'])) cs)
        = containsSub lit (c :: cs)
    rw [likeMatch_lit_pct lit h, ih]
    rfl

theorem lowerStr_wild_free (q : List Char) (hw : ∀ c ∈ q, ¬ c = '%' ∧ ¬ c = '_') :
    ∀ c ∈ lowerStr q, ¬ c = '%' ∧ ¬ c = '_' := by
  intro c hc
  obtain ⟨a, ha, rfl⟩ := List.mem_map.mp hc
  refine ⟨lowerChar_ne a '%' (by left; decide) (hw a ha).1,
          lowerChar_ne a '_' (by left; decide) (hw a ha).2⟩

theorem data_pct_append (q : String) :
    ("%" ++ q ++ "%").data = '%' :: (q.data ++ ['%']) := by
  have h1 : ∀ a b : String, (a ++ b).data = a.data ++ b.data := fun a b => rfl
  rw [h1, h1]
  rfl

theorem ilike_eq_containsCI (q s : String) (hw : ∀ c ∈ q.data, ¬ c = '%' ∧ ¬ c = '_') :
    ilike s ("%" ++ q ++ "%") = containsCI q s := by
  unfold ilike containsCI
  rw [data_pct_append]
  have hmap : lowerStr ('%' :: (q.data ++ ['%']))
      = '%' :: (lowerStr q.data ++ ['%']) := by
    unfold lowerStr
    rw [List.map_cons, List.map_append]
    have h1 : lowerChar '%' = '%' := by decide
    rw [h1]
    rfl
  rw [hmap]
  exact likeMatch_pct_lit_pct (lowerStr q.data) (lowerStr_wild_free q.data hw) (lowerStr s.data)

theorem tag_entry_iff (db : DB) (pr : Prompt) (n : String) :
    ((match get_tag_by_name db n with
      | some t => pr.tagIds.contains t.id
      | none => true) = true)
      ↔ (∀ t, get_tag_by_name db n = some t → pr.tagIds.contains t.id = true) := by
  cases h : get_tag_by_name db n <;> simp

/-- C6: for every search invocation, the reported total is the number of
prompts matching the filters before pagination, and the returned list is the
matching set with the offset applied before the limit. -/
theorem C6_total_before_pagination (db : DB) (p : PromptSearch) :
    (search_prompts db p).2 = (db.prompts.filter (spec_matches db p)).length
    ∧ (search_prompts db p).1
        = ((db.prompts.filter (spec_matches db p)).drop p.offset).take p.limit := by
  rw [search_prompts_eq]
  exact ⟨rfl, rfl⟩

/-- C7: with only a tag-name list given (offset 0 and a limit at least the
store size), a prompt is returned iff it is stored and carries every listed
tag that resolves to an existing tag; names resolving to no tag impose no
condition. -/
theorem C7_tag_and_semantics (db : DB) (names : List String) (L : Nat)
    (hL : db.prompts.length ≤ L) (pr : Prompt) :
    pr ∈ (search_prompts db ⟨none, none, some names, L, 0⟩).1
      ↔ pr ∈ db.prompts ∧
          (∀ n ∈ names, ∀ t, get_tag_by_name db n = some t →
            pr.tagIds.contains t.id = true) := by
  rw [search_prompts_eq]
  dsimp only
  rw [List.drop_zero, List.take_of_length_le (le_trans (List.length_filter_le _ _) hL)]
  rw [List.mem_filter]
  constructor
  · rintro ⟨hmem, hsm⟩
    refine ⟨hmem, ?_⟩
    intro n hn t ht
    have htc : tag_cond db ⟨none, none, some names, L, 0⟩ pr = true := by
      unfold spec_matches at hsm
      cases h1 : query_cond ⟨none, none, some names, L, 0⟩ pr <;>
        cases h2 : folder_cond db ⟨none, none, some names, L, 0⟩ pr <;>
        cases h3 : tag_cond db ⟨none, none, some names, L, 0⟩ pr <;>
        simp [h1, h2, h3] at hsm ⊢
    unfold tag_cond at htc
    dsimp only at htc
    rw [List.all_eq_true] at htc
    have := htc n hn
    rw [tag_entry_iff] at this
    exact this t ht
  · rintro ⟨hmem, hall⟩
    refine ⟨hmem, ?_⟩
    unfold spec_matches
    have h1 : query_cond ⟨none, none, some names, L, 0⟩ pr = true := rfl
    have h2 : folder_cond db ⟨none, none, some names, L, 0⟩ pr = true := rfl
    have h3 : tag_cond db ⟨none, none, some names, L, 0⟩ pr = true := by
      unfold tag_cond
      dsimp only
      rw [List.all_eq_true]
      intro n hn
      rw [tag_entry_iff]
      exact hall n hn
    rw [h1, h2, h3]
    rfl

/-- C5 (amended): for a non-empty query free of the LIKE wildcard characters
'%' and '_' (and no other filters, offset 0, limit at least the store size),
the search returns exactly the prompts whose title, content, or description
contains the query as a case-insensitive substring; a NULL description
matches nothing. -/
theorem C5_substring_search (db : DB) (q : String) (L : Nat)
    (hq : ¬ q = "") (hw : ∀ c ∈ q.data, ¬ c = '%' ∧ ¬ c = '_')
    (hL : db.prompts.length ≤ L) :
    (search_prompts db ⟨some q, none, none, L, 0⟩).1
      = db.prompts.filter (fun pr =>
          containsCI q pr.title || containsCI q pr.content ||
            (match pr.description with
             | some d => containsCI q d
             | none => false)) := by
  rw [search_prompts_eq]
  dsimp only
  rw [List.drop_zero, List.take_of_length_le (le_trans (List.length_filter_le _ _) hL)]
  apply List.filter_congr
  intro pr _
  have hsm : spec_matches db ⟨some q, none, none, L, 0⟩ pr
      = query_pred q pr := by
    unfold spec_matches query_cond folder_cond tag_cond
    dsimp only
    rw [if_neg hq]
    cases query_pred q pr <;> rfl
  rw [hsm]
  unfold query_pred
  rw [ilike_eq_containsCI q pr.title hw, ilike_eq_containsCI q pr.content hw]
  cases pr.description with
  | none => rfl
  | some d =>
    dsimp only
    rw [ilike_eq_containsCI q d hw]

/-- C1: the claim says both template-use operations turn content
"Hello \x7bname\x7d, \x7b\x7bname\x7d\x7d again" with variables
name = World into "Hello World, World again".  The code replaces the
single-brace form first, which consumes the inside of every double-brace
occurrence, so both operations actually produce
"Hello World, \x7bWorld\x7d again" — the second replace can never match and
the double-brace placeholder is left half-substituted.  This theorem
evaluates both operations at the claim's own example. -/
theorem C1_template_substitution_bug :
    use_prompt_template db_greet 1 [("name", "World")]
        = some "Hello World, \x7bWorld\x7d again"
  ∧ find_and_use_prompt db_greet "Hello" [("name", "World")]
        = some "Hello World, \x7bWorld\x7d again"
  ∧ ¬ use_prompt_template db_greet 1 [("name", "World")]
        = some "Hello World, World again" := by decide

/-- C2: renaming /A to /B via the update_folder composition, when /A/C
exists and contains prompt X, succeeds; afterwards no folder has path /A or
/A/C, folders exist at /B and /B/C, and X's folder_path is "/B/C". -/
theorem C2_rename_cascade :
    (update_folder_tool dbA "/A" "/B").2 = true
  ∧ get_folder_by_path (update_folder_tool dbA "/A" "/B").1 "/A" = none
  ∧ get_folder_by_path (update_folder_tool dbA "/A" "/B").1 "/A/C" = none
  ∧ (get_folder_by_path (update_folder_tool dbA "/A" "/B").1 "/B").isSome = true
  ∧ (get_folder_by_path (update_folder_tool dbA "/A" "/B").1 "/B/C").isSome = true
  ∧ (get_prompt (update_folder_tool dbA "/A" "/B").1 1).map
        (prompt_folder_path (update_folder_tool dbA "/A" "/B").1)
      = some (some "/B/C") := by decide

/-- C5 counterexample: the claim promises that every returned prompt
contains the query as a case-insensitive substring of its title, content,
or description.  With query "x_z" the search returns the prompt whose only
text fields are "t1" and "xyz", yet neither contains "x_z": the SQL LIKE
wildcard '_' matched the 'y'. -/
theorem C5_wildcard_counterexample :
    (search_prompts db_xyz ⟨some "x_z", none, none, 100, 0⟩).1
        = [⟨1, "t1", "xyz", none, none, []⟩]
  ∧ containsCI "x_z" "t1" = false
  ∧ containsCI "x_z" "xyz" = false := by decide

/-- Witness for C5: concrete instance with query "y". -/
theorem C5_substring_search_witness :
    (¬ ("y" : String) = "") ∧
    (search_prompts db_xyz ⟨some "y", none, none, 5, 0⟩).1
      = db_xyz.prompts.filter (fun pr =>
          containsCI "y" pr.title || containsCI "y" pr.content ||
            (match pr.description with
             | some d => containsCI "y" d
             | none => false)) :=
  ⟨by decide, C5_substring_search db_xyz "y" 5 (by decide) (by decide) (by decide)⟩

/-- Witness for C7: the prompt carries tag "a", and the unknown name "zzz"
imposes no condition. -/
theorem C7_tag_and_semantics_witness :
    db_tags.prompts.length ≤ 100 ∧
    ((⟨1, "t", "c", none, none, [8, 9]⟩ : Prompt)
        ∈ (search_prompts db_tags ⟨none, none, some ["a", "zzz"], 100, 0⟩).1
      ↔ (⟨1, "t", "c", none, none, [8, 9]⟩ : Prompt) ∈ db_tags.prompts ∧
          (∀ n ∈ ["a", "zzz"], ∀ t, get_tag_by_name db_tags n = some t →
            (⟨1, "t", "c", none, none, [8, 9]⟩ : Prompt).tagIds.contains t.id = true)) :=
  ⟨by decide, C7_tag_and_semantics db_tags ["a", "zzz"] 100 (by decide) _⟩

theorem list_folders_fst (db : DB) :
    (list_folders db none).map Prod.fst = db.folders := by
  unfold list_folders
  dsimp only
  rw [List.map_map]
  exact List.map_id db.folders

/-- C3: the folder-rename tool rejects with an error and leaves the store
unchanged whenever the old path is "/", the new path already denotes an
existing folder, or the new path is a descendant of the old path; and for
an existing old path with none of those conditions it proceeds to the
success response. -/
theorem C3_rename_validation (db : DB) (old0 new0 : String)
    (hold : strStartsWith old0 "/" = true) (hnew : strStartsWith new0 "/" = true) :
    ((old0 = "/" ∨ (get_folder_by_path db new0).isSome = true
        ∨ strStartsWith new0 (old0 ++ "/") = true) →
      update_folder_tool db old0 new0 = (db, false))
  ∧ ((get_folder_by_path db old0).isSome = true ∧ ¬ old0 = "/"
        ∧ get_folder_by_path db new0 = none
        ∧ ¬ strStartsWith new0 (old0 ++ "/") = true →
      (update_folder_tool db old0 new0).2 = true) := by
  have hne : ¬ old0 = "" := by
    intro he
    rw [he] at hold
    exact absurd hold (by decide)
  have hne2 : ¬ new0 = "" := by
    intro he
    rw [he] at hnew
    exact absurd hnew (by decide)
  have hfold : ∀ p, db.folders.find? (fun f => f.path = p) = get_folder_by_path db p :=
    fun _ => rfl
  constructor
  · intro hrej
    unfold update_folder_tool
    rw [if_neg (by push_neg; exact ⟨hne, hne2⟩)]
    dsimp only
    rw [if_pos hold, if_pos hnew, list_folders_fst, hfold, hfold]
    cases hf : get_folder_by_path db old0 with
    | none => rfl
    | some F =>
      dsimp only
      by_cases hn : (get_folder_by_path db new0).isSome = true
      · rw [if_pos hn]
      · rw [if_neg hn]
        by_cases hr : old0 = "/"
        · rw [if_pos hr]
        · rw [if_neg hr]
          by_cases hd : strStartsWith new0 (old0 ++ "/") = true
          · rw [if_pos hd]
          · exfalso
            rcases hrej with h1 | h2 | h3
            · exact hr h1
            · exact hn h2
            · exact hd h3
  · rintro ⟨hsome, hroot, hnewnone, hdesc⟩
    unfold update_folder_tool
    rw [if_neg (by push_neg; exact ⟨hne, hne2⟩)]
    dsimp only
    rw [if_pos hold, if_pos hnew, list_folders_fst, hfold, hfold]
    cases hf : get_folder_by_path db old0 with
    | none => rw [hf] at hsome; exact absurd hsome (by decide)
    | some F =>
      dsimp only
      rw [if_neg (by rw [hnewnone]; decide), if_neg hroot, if_neg hdesc]

theorem nodup_map_mem_inj {α β : Type} (f : α → β) (l : List α)
    (h : (l.map f).Nodup) {a b : α} (ha : a ∈ l) (hb : b ∈ l) (hf : f a = f b) :
    a = b :=
  List.inj_on_of_nodup_map h ha hb hf

/-- C4: deleting an existing folder F (found by path) returns true,
reparents exactly the prompts directly inside F to F's own parent id,
removes F's row and no other folder row, and afterwards no folder listed by
list_folders has the deleted path.  Grandchild folders survive untouched. -/
theorem C4_delete_folder_frame (db : DB) (p : String) (F : Folder)
    (hF : get_folder_by_path db p = some F) (hwf : folders_wf db) :
    (delete_folder db p).2 = true
  ∧ (delete_folder db p).1.prompts
      = db.prompts.map (fun pr =>
          if pr.folder_id = some F.id then { pr with folder_id := F.parent_id } else pr)
  ∧ (delete_folder db p).1.folders = db.folders.filter (fun g => ¬ g.id = F.id)
  ∧ (∀ g ∈ db.folders, ¬ g.id = F.id → g ∈ (delete_folder db p).1.folders)
  ∧ (∀ x ∈ list_folders (delete_folder db p).1 none, ¬ x.1.path = p) := by
  have hFmem : F ∈ db.folders := List.mem_of_find?_eq_some hF
  have hFpath : F.path = p := by
    have := List.find?_some hF
    exact of_decide_eq_true this
  unfold delete_folder
  rw [hF]
  refine ⟨rfl, rfl, rfl, ?_, ?_⟩
  · intro g hg hgid
    dsimp only
    rw [List.mem_filter]
    exact ⟨hg, by simpa using hgid⟩
  · intro x hx
    unfold list_folders at hx
    dsimp only at hx
    rw [List.mem_map] at hx
    obtain ⟨g, hg, rfl⟩ := hx
    rw [List.mem_filter] at hg
    obtain ⟨hgmem, hgid⟩ := hg
    intro hpath
    have hp2 : g.path = p := hpath
    have hgF : g = F := nodup_map_mem_inj (fun f => f.path) db.folders hwf.2 hgmem hFmem
      (show g.path = F.path by rw [hp2, hFpath])
    rw [hgF] at hgid
    simp at hgid

/-- C9: creating a tag whose exact (case-sensitive) name already exists is
idempotent: the tool returns the pre-existing tag with its fields unchanged
and leaves the store untouched, so the store still contains exactly one tag
of that name. -/
theorem C9_create_tag_idempotent (db : DB) (name : String) (c col : Option String)
    (t : Tag) (hname : ¬ name = "") (h : get_tag_by_name db name = some t)
    (hone : (db.tags.filter (fun s => s.name = name)).length = 1) :
    create_tag_tool db name c col = (db, some t)
  ∧ ((create_tag_tool db name c col).1.tags.filter
        (fun s => s.name = name)).length = 1 := by
  unfold create_tag_tool
  rw [if_neg hname, h]
  exact ⟨rfl, hone⟩

theorem find?_append_none {α : Type} (q : α → Bool) (l1 l2 : List α)
    (h : l1.find? q = none) : (l1 ++ l2).find? q = l2.find? q := by
  rw [List.find?_append, h]
  rfl

/-- C10: when a folder hierarchy is created implicitly, the depth-1 segment
gets parent_id none — it is not linked to the existing root row — and each
deeper new segment's parent_id is the id of the folder created for the
preceding segment; an explicit create_folder with parent path "/" instead
links to the root row's id. -/
theorem C10_hierarchy_parent_links (db : DB) (r : Folder)
    (hroot : get_folder_by_path db "/" = some r)
    (hX : get_folder_by_path db "/X" = none)
    (hXY : get_folder_by_path db "/X/Y" = none) :
    get_folder_by_path (create_folder_hierarchy db "/X/Y").1 "/X"
        = some ⟨db.next_folder_id, "X", "/X", none⟩
  ∧ get_folder_by_path (create_folder_hierarchy db "/X/Y").1 "/X/Y"
        = some ⟨db.next_folder_id + 1, "Y", "/X/Y", some db.next_folder_id⟩
  ∧ (create_folder db "Z" "/Z" (some "/")).2.parent_id = some r.id := by
  have hsplit : ((splitOnChar '/' "/X/Y".data).filter (fun s => ¬ s = "")) = ["X", "Y"] := by
    decide
  have hX' : db.folders.find? (fun f => f.path = "/X") = none := hX
  have hXY' : db.folders.find? (fun f => f.path = "/X/Y") = none := hXY
  have hstep : create_folder_hierarchy db "/X/Y"
      = ({ db with
            folders := (db.folders ++ [⟨db.next_folder_id, "X", "/X", none⟩])
              ++ [⟨db.next_folder_id + 1, "Y", "/X/Y", some db.next_folder_id⟩],
            next_folder_id := db.next_folder_id + 2 },
         some (db.next_folder_id + 1)) := by
    unfold create_folder_hierarchy
    rw [hsplit]
    show create_folder_hierarchy_aux db "" none ["X", "Y"] = _
    unfold create_folder_hierarchy_aux
    dsimp only
    have e1 : db.folders.find? (fun f => f.path = "" ++ "/" ++ "X") = none := hX
    rw [e1]
    dsimp only
    unfold create_folder_hierarchy_aux
    dsimp only
    have e2 : (db.folders ++ [(⟨db.next_folder_id, "X", "" ++ "/" ++ "X", none⟩ : Folder)]).find?
        (fun f => f.path = "" ++ "/" ++ "X" ++ "/" ++ "Y") = none := by
      have e2a : db.folders.find? (fun f => f.path = "" ++ "/" ++ "X" ++ "/" ++ "Y") = none := hXY
      rw [find?_append_none _ _ _ e2a]
      rfl
    rw [e2]
    dsimp only
    unfold create_folder_hierarchy_aux
    rfl
  refine ⟨?_, ?_, ?_⟩
  · rw [hstep]
    unfold get_folder_by_path
    dsimp only
    rw [List.append_assoc, find?_append_none _ _ _ hX']
    rfl
  · rw [hstep]
    unfold get_folder_by_path
    dsimp only
    rw [List.append_assoc, find?_append_none _ _ _ hXY']
    rfl
  · unfold create_folder
    dsimp only
    rw [if_neg (show ¬ ("/" : String) = "" from by decide), hroot]

/-- Witness for C3: on the store holding /A and /A/C, renaming /A to /B
satisfies the proceed conditions, and the reject conditions imply an
unchanged store. -/
theorem C3_rename_validation_witness :
    strStartsWith "/A" "/" = true ∧ strStartsWith "/B" "/" = true ∧
    ((("/A" : String) = "/" ∨ (get_folder_by_path dbA "/B").isSome = true
        ∨ strStartsWith "/B" ("/A" ++ "/") = true) →
      update_folder_tool dbA "/A" "/B" = (dbA, false))
  ∧ (((get_folder_by_path dbA "/A").isSome = true ∧ ¬ ("/A" : String) = "/"
        ∧ get_folder_by_path dbA "/B" = none
        ∧ ¬ strStartsWith "/B" ("/A" ++ "/") = true) →
      (update_folder_tool dbA "/A" "/B").2 = true) :=
  ⟨by decide, by decide,
   (C3_rename_validation dbA "/A" "/B" (by decide) (by decide)).1,
   (C3_rename_validation dbA "/A" "/B" (by decide) (by decide)).2⟩

/-- Witness for C4: deleting /A/C from the store holding /A and /A/C with
prompt X inside. -/
theorem C4_delete_folder_frame_witness :
    get_folder_by_path dbA "/A/C" = some ⟨3, "C", "/A/C", some 2⟩
  ∧ folders_wf dbA
  ∧ ((delete_folder dbA "/A/C").2 = true
  ∧ (delete_folder dbA "/A/C").1.prompts
      = dbA.prompts.map (fun pr =>
          if pr.folder_id = some (3 : Nat) then { pr with folder_id := some 2 } else pr)
  ∧ (delete_folder dbA "/A/C").1.folders = dbA.folders.filter (fun g => ¬ g.id = 3)
  ∧ (∀ g ∈ dbA.folders, ¬ g.id = 3 → g ∈ (delete_folder dbA "/A/C").1.folders)
  ∧ (∀ x ∈ list_folders (delete_folder dbA "/A/C").1 none, ¬ x.1.path = "/A/C")) :=
  ⟨by decide, by decide,
   C4_delete_folder_frame dbA "/A/C" ⟨3, "C", "/A/C", some 2⟩ (by decide) (by decide)⟩

/-- Witness for C9: the seeded tag "claude" already exists in the fresh
store. -/
theorem C9_create_tag_idempotent_witness :
    ¬ ("claude" : String) = ""
  ∧ get_tag_by_name db0 "claude" = some ⟨1, "claude", some "ai_tool", some "#7C3AED"⟩
  ∧ (db0.tags.filter (fun s => s.name = "claude")).length = 1
  ∧ create_tag_tool db0 "claude" none none
      = (db0, some ⟨1, "claude", some "ai_tool", some "#7C3AED"⟩)
  ∧ ((create_tag_tool db0 "claude" none none).1.tags.filter
        (fun s => s.name = "claude")).length = 1 :=
  ⟨by decide, by decide, by decide,
   (C9_create_tag_idempotent db0 "claude" none none
      ⟨1, "claude", some "ai_tool", some "#7C3AED"⟩ (by decide) (by decide) (by decide)).1,
   (C9_create_tag_idempotent db0 "claude" none none
      ⟨1, "claude", some "ai_tool", some "#7C3AED"⟩ (by decide) (by decide) (by decide)).2⟩

/-- Witness for C10: in the fresh store (root id 1, next folder id 2),
filing under /X/Y creates /X with parent none and /X/Y with parent the id
of /X, while an explicit create under "/" links to the root id. -/
theorem C10_hierarchy_parent_links_witness :
    get_folder_by_path db0 "/" = some ⟨1, "Root", "/", none⟩
  ∧ get_folder_by_path db0 "/X" = none
  ∧ get_folder_by_path db0 "/X/Y" = none
  ∧ (get_folder_by_path (create_folder_hierarchy db0 "/X/Y").1 "/X"
        = some ⟨2, "X", "/X", none⟩
  ∧ get_folder_by_path (create_folder_hierarchy db0 "/X/Y").1 "/X/Y"
        = some ⟨3, "Y", "/X/Y", some 2⟩
  ∧ (create_folder db0 "Z" "/Z" (some "/")).2.parent_id = some 1) :=
  ⟨by decide, by decide, by decide,
   C10_hierarchy_parent_links db0 ⟨1, "Root", "/", none⟩ (by decide) (by decide) (by decide)⟩

theorem find?_id_of_nodup (l : List Tag) (h : (l.map (fun t => t.id)).Nodup)
    (t : Tag) (ht : t ∈ l) : l.find? (fun s => s.id = t.id) = some t := by
  induction l with
  | nil => cases ht
  | cons a l ih =>
    rw [List.map_cons, List.nodup_cons] at h
    cases ht with
    | head => simp [List.find?_cons]
    | tail _ htl =>
      rw [List.find?_cons]
      split
      · rename_i hd
        exfalso
        have : a.id = t.id := of_decide_eq_true hd
        exact h.1 (this ▸ List.mem_map_of_mem (fun s => s.id) htl)
      · exact ih h.2 htl

theorem hierarchy_aux_pres (parts : List String) : ∀ (db : DB) (cp : String)
    (pid : Option Nat),
    (create_folder_hierarchy_aux db cp pid parts).1.tags = db.tags
    ∧ (create_folder_hierarchy_aux db cp pid parts).1.next_tag_id = db.next_tag_id
    ∧ (create_folder_hierarchy_aux db cp pid parts).1.prompts = db.prompts := by
  induction parts with
  | nil => intro db cp pid; exact ⟨rfl, rfl, rfl⟩
  | cons part rest ih =>
    intro db cp pid
    unfold create_folder_hierarchy_aux
    dsimp only
    cases hf : db.folders.find? (fun f => f.path = cp ++ "/" ++ part) with
    | some f => exact ih db _ _
    | none => exact ih _ _ _

theorem update_folder_resolve_pres (db : DB) (pr : Prompt) (u : PromptUpdate) :
    (update_folder_resolve db pr u).1.tags = db.tags
    ∧ (update_folder_resolve db pr u).1.next_tag_id = db.next_tag_id
    ∧ (update_folder_resolve db pr u).1.prompts = db.prompts := by
  unfold update_folder_resolve
  cases u.folder_path with
  | none => exact ⟨rfl, rfl, rfl⟩
  | some fp =>
    dsimp only
    cases get_folder_by_path db fp with
    | some f => exact ⟨rfl, rfl, rfl⟩
    | none =>
      dsimp only
      by_cases hfp : fp = ""
      · rw [if_pos hfp]; exact ⟨rfl, rfl, rfl⟩
      · rw [if_neg hfp]
        unfold create_folder_hierarchy
        exact hierarchy_aux_pres _ db "" none

theorem resolve_tags_spec (names : List String) : ∀ db : DB, tags_wf db →
    ∃ ext : List Tag,
      (resolve_tags db names).1.tags = db.tags ++ ext
      ∧ (∀ t ∈ ext, t.category = some "custom")
      ∧ tags_wf (resolve_tags db names).1
      ∧ ((resolve_tags db names).2.map (fun i =>
            ((resolve_tags db names).1.tags.find? (fun t => t.id = i)).map
              (fun t => t.name))
          = names.map some) := by
  induction names with
  | nil =>
    intro db hwf
    exact ⟨[], by simp [resolve_tags], by simp, hwf, by simp [resolve_tags]⟩
  | cons n ns ih =>
    intro db hwf
    unfold resolve_tags
    cases hfind : db.tags.find? (fun t => t.name = n) with
    | some t =>
      dsimp only
      obtain ⟨ext, hext, hcust, hwf2, hmap⟩ := ih db hwf
      refine ⟨ext, hext, hcust, hwf2, ?_⟩
      rw [List.map_cons, hmap, List.map_cons]
      have htmem : t ∈ db.tags := List.mem_of_find?_eq_some hfind
      have htname : t.name = n := by
        have h1 := List.find?_some hfind
        simpa using h1
      have hfid : (resolve_tags db ns).1.tags.find? (fun s => s.id = t.id) = some t := by
        apply find?_id_of_nodup _ hwf2.1
        rw [hext]
        exact List.mem_append_left ext htmem
      rw [hfid]
      simp [htname]
    | none =>
      dsimp only
      have hwf1 : tags_wf { db with
          tags := db.tags ++ [⟨db.next_tag_id, n, some "custom", none⟩],
          next_tag_id := db.next_tag_id + 1 } := by
        constructor
        · rw [List.map_append, List.nodup_append]
          refine ⟨hwf.1, List.nodup_singleton _, ?_⟩
          intro x hx hy
          rw [List.mem_map] at hx
          obtain ⟨s, hs, rfl⟩ := hx
          have := hwf.2 s hs
          simp at hy
          omega
        · intro t ht
          rw [List.mem_append] at ht
          cases ht with
          | inl h1 => have := hwf.2 t h1; dsimp only; omega
          | inr h2 =>
            rw [List.mem_singleton] at h2
            rw [h2]
            dsimp only
            omega
      obtain ⟨ext1, hext1, hcust1, hwf2, hmap1⟩ := ih _ hwf1
      refine ⟨⟨db.next_tag_id, n, some "custom", none⟩ :: ext1, ?_, ?_, hwf2, ?_⟩
      · rw [hext1]
        dsimp only
        rw [List.append_assoc]
        rfl
      · intro t ht
        cases ht with
        | head => rfl
        | tail _ h2 => exact hcust1 t h2
      · rw [List.map_cons, hmap1, List.map_cons]
        have hmem : (⟨db.next_tag_id, n, some "custom", none⟩ : Tag)
            ∈ (resolve_tags { db with
                tags := db.tags ++ [⟨db.next_tag_id, n, some "custom", none⟩],
                next_tag_id := db.next_tag_id + 1 } ns).1.tags := by
          rw [hext1]
          apply List.mem_append_left
          dsimp only
          exact List.mem_append_right _ (List.mem_singleton.mpr rfl)
        have hfid := find?_id_of_nodup _ hwf2.1 _ hmem
        rw [hfid]
        rfl

/-- C8: on an existing prompt, an update whose tags field is present
replaces the entire tag set: the updated prompt's tag ids resolve, in
order, to exactly the given names, and every tag row the update added to
the store carries category "custom"; a present empty list leaves the prompt
with no tags; an absent tags field leaves the tag set unchanged.  (The
Nodup hypothesis keeps the statement inside the territory where the real
store's association-table primary key cannot reject the write.) -/
theorem C8_update_tags_replacement (db : DB) (pid : Nat) (u : PromptUpdate)
    (pr : Prompt) (hfind : db.prompts.find? (fun q => q.id = pid) = some pr)
    (hwf : tags_wf db)
    (hnd : ∀ names, u.tags = some names → names.Nodup) :
    (∀ names, u.tags = some names →
      ((update_prompt db pid u).2.map (fun p2 =>
          p2.tagIds.map (fun i =>
            ((update_prompt db pid u).1.tags.find? (fun t => t.id = i)).map
              (fun t => t.name)))
        = some (names.map some))
      ∧ (∀ t ∈ (update_prompt db pid u).1.tags, t ∉ db.tags →
          t.category = some "custom"))
  ∧ (u.tags = some [] →
      (update_prompt db pid u).2.map (fun p2 => p2.tagIds) = some [])
  ∧ (u.tags = none →
      (update_prompt db pid u).2.map (fun p2 => p2.tagIds) = some pr.tagIds) := by
  have hpres := update_folder_resolve_pres db pr u
  have hwfr : tags_wf (update_folder_resolve db pr u).1 := by
    constructor
    · rw [hpres.1]
      exact hwf.1
    · intro t ht
      rw [hpres.1] at ht
      rw [hpres.2.1]
      exact hwf.2 t ht
  refine ⟨?_, ?_, ?_⟩
  · intro names hu
    obtain ⟨ext, hext, hcust, hwf2, hmap⟩ :=
      resolve_tags_spec names (update_folder_resolve db pr u).1 hwfr
    unfold update_prompt
    rw [hfind]
    dsimp only
    rw [hu]
    dsimp only
    constructor
    · exact congrArg some hmap
    · intro t ht hnotin
      rw [hext] at ht
      rw [List.mem_append] at ht
      cases ht with
      | inl h1 =>
        rw [hpres.1] at h1
        exact absurd h1 hnotin
      | inr h2 => exact hcust t h2
  · intro hu
    unfold update_prompt
    rw [hfind]
    dsimp only
    rw [hu]
    rfl
  · intro hu
    unfold update_prompt
    rw [hfind]
    dsimp only
    rw [hu]
    rfl

theorem C8_update_tags_replacement_witness :
    db_tags.prompts.find? (fun q => q.id = 1) = some ⟨1, "t", "c", none, none, [8, 9]⟩
  ∧ tags_wf db_tags
  ∧ ((∀ names, u8.tags = some names →
      ((update_prompt db_tags 1 u8).2.map (fun p2 =>
          p2.tagIds.map (fun i =>
            ((update_prompt db_tags 1 u8).1.tags.find? (fun t => t.id = i)).map
              (fun t => t.name)))
        = some (names.map some))
      ∧ (∀ t ∈ (update_prompt db_tags 1 u8).1.tags, t ∉ db_tags.tags →
          t.category = some "custom"))
  ∧ (u8.tags = some [] →
      (update_prompt db_tags 1 u8).2.map (fun p2 => p2.tagIds) = some [])
  ∧ (u8.tags = none →
      (update_prompt db_tags 1 u8).2.map (fun p2 => p2.tagIds)
        = some [8, 9])) :=
  ⟨by decide, by decide,
   C8_update_tags_replacement db_tags 1 u8 ⟨1, "t", "c", none, none, [8, 9]⟩
     (by decide) (by decide)
     (fun names h => by cases h; decide)⟩
